import Mathlib

/-!
Verification of the route/component extraction engine.

The definitions below are a shallow embedding of the Python source:
  - `src/analyze-angular.py` (monolithic engine; suffix `AA` on names)
  - `src/analyzer/route_analyzer.py` and `src/analyzer/utils.py`
    (modular engine; suffix `RA` / `U` on names)
Strings are modelled as `List Char` where convenient; every regular
expression of the source is rendered as a dedicated character scanner whose
doc comment quotes the original pattern.
-/

namespace Spec2Proof

/-! ### Character and Python-string helpers -/

/-- The apostrophe character. -/
def chQ1 : Char := Char.ofNat 39

/-- The double-quote character. -/
def chQ2 : Char := Char.ofNat 34

/-- Left curly brace. -/
def chLB : Char := Char.ofNat 123

/-- Right curly brace. -/
def chRB : Char := Char.ofNat 125

/-- Backslash. -/
def chBS : Char := Char.ofNat 92

/-- Newline. -/
def chNL : Char := Char.ofNat 10

def isQuoteCh (c : Char) : Bool := c = chQ1 || c = chQ2

/-- Python `\s` on the ASCII plane: space, tab, newline, CR, VT, FF. -/
def isPyWs (c : Char) : Bool :=
  c = ' ' || c = Char.ofNat 9 || c = chNL || c = Char.ofNat 13 ||
  c = Char.ofNat 11 || c = Char.ofNat 12

/-- Python `sub in s` (substring containment). -/
def containsList (sub : List Char) : List Char → Bool
  | [] => sub.isEmpty
  | s@(_ :: t) => sub.isPrefixOf s || containsList sub t

/-- Python `sub in s` on `String`s. -/
def strContains (s sub : String) : Bool := containsList sub.data s.data

/-- Python `s.strip()`. -/
def pyStrip (s : List Char) : List Char :=
  ((s.dropWhile isPyWs).reverse.dropWhile isPyWs).reverse

/-- Python `s.rstrip()`. -/
def pyRStrip (s : List Char) : List Char :=
  (s.reverse.dropWhile isPyWs).reverse

/-- Python `s.lower()` (ASCII). -/
def pyLower (s : List Char) : List Char := s.map Char.toLower

/-- Python `os.path.basename` (POSIX): the part after the last slash. -/
def pyBasename (s : List Char) : List Char :=
  s.foldl (fun acc c => if c = '/' then [] else acc ++ [c]) []

/-- Python `s.split('\n')` over character lists. -/
def splitNL : List Char → List (List Char)
  | [] => [[]]
  | c :: rest =>
    match splitNL rest with
    | [] => [[]]
    | h :: t => if c = chNL then [] :: h :: t else (c :: h) :: t

/-- Python `s.split('\n')`. -/
def pyLines (s : String) : List String := (splitNL s.data).map String.mk

/-- Index of the first occurrence of `sub` in `s`, Python `s.find(sub)` (−1 if absent). -/
def pyFindAux (sub : List Char) : List Char → Nat → Int
  | [], _ => if sub.isEmpty then 0 else -1
  | s@(_ :: t), i => if sub.isPrefixOf s then (i : Int) else pyFindAux sub t (i + 1)

def pyFind (s sub : List Char) : Int := pyFindAux sub s 0

/-- Python `s.rfind(sub)`: index of the last occurrence (−1 if absent). -/
def pyRFindAux (sub : List Char) : List Char → Nat → Int → Int
  | [], _, best => best
  | s@(_ :: t), i, best =>
    pyRFindAux sub t (i + 1) (if sub.isPrefixOf s then (i : Int) else best)

def pyRFind (s sub : List Char) : Int := pyRFindAux sub s 0 (-1)

/-- Truthiness of an optional string field, as in Python (`None` and `''` are falsy). -/
def optTruthy : Option String → Bool
  | none => false
  | some s => !s.data.isEmpty

/-- Python `s.startswith(pre)`. -/
def pyStartsWith (s pre : String) : Bool := pre.data.isPrefixOf s.data

/-! ### The dependency filter

`_is_vendor_or_minified` and `_filter_dependencies` from `analyze-angular.py`
(lines 1913–2015), and `is_vendor_or_minified` / `filter_dependencies` from
`analyzer/utils.py` (lines 5–67).
-/

/-- `vendor_indicators` of `analyze-angular.py:_is_vendor_or_minified`. -/
def vendorIndicatorsAA : List String :=
  ["vendor/", "/vendor/", "scripts/vendor",
   "angular-", "jquery", "bootstrap",
   "datatables", "footable", "flot",
   "jqvmap", "magnific", "mixitup",
   "slider", "touchspin", "qrcode", "barcode",
   "Scripts/vendor", "/vendor/js/", "/vendor/css/",
   "libs/", "/lib/", "node_modules/"]

/-- `allowed_vendor_libs` of `analyze-angular.py:_is_vendor_or_minified`. -/
def allowedVendorLibsAA : List String :=
  ["angular-qrcode", "qrcode-generator", "barcode-generator",
   "slider", "table-to-excel", "ui-router", "ui-bootstrap"]

/-- `minified_indicators` of `analyze-angular.py:_is_vendor_or_minified`. -/
def minifiedIndicatorsAA : List String :=
  [".min.js", ".min.css", "-min.js", "-min.css",
   ".bundle.js", ".bundle.css", ".pack.js",
   ".compiled.js", ".prod.js", ".compressed.js",
   "dist.js", "compressed.css", "minimized.js",
   "jquery.min.js", "angular.min.js", "bootstrap.min.js",
   "bootstrap.min.css", "all.min.css", "app.min.js",
   "datatables.min.js", "dataTables.bootstrap.min.js",
   "jquery.dataTables", "alasql.min.js", "xlsx.core.min.js",
   "input.js", "columnFilter.js", "filestyle.min.js",
   "barcode.css", ".googleapis.com", "cloudflare.com"]

/-- `analyze-angular.py:_is_vendor_or_minified` (lines 1913–1974): allow-list
first (returns `False`), then vendor indicators, then minified indicators,
then the long-numbered-filename heuristic. -/
def isVendorOrMinifiedAA (path : String) : Bool :=
  let low := pyLower path.data
  if allowedVendorLibsAA.any (fun lib => containsList lib.data low) then false
  else if vendorIndicatorsAA.any (fun ind => containsList ind.data low) then true
  else if minifiedIndicatorsAA.any (fun ind => containsList ind.data low) then true
  else
    let filename := pyBasename path.data
    decide (filename.length > 50) && filename.any Char.isDigit

/-- `file_extensions` of `analyze-angular.py:_filter_dependencies`. -/
def fileExtensionsAA : List String :=
  [".js", ".css", ".html", ".json", ".svg", ".png", ".jpg", ".jpeg", ".gif",
   ".tpl.html", ".template.html", ".component.js", ".service.js", ".factory.js",
   ".directive.js", ".filter.js", ".provider.js", ".controller.js", ".module.js"]

/-- The "common non-dependency strings" rejected by `_filter_dependencies`. -/
def commonNonDepsAA : List String :=
  ["true", "false", "null", "undefined", "function", "return",
   "const", "let", "var", "this"]

/-- The per-token decision of `analyze-angular.py:_filter_dependencies`
(lines 1999–2013): skip vendor/minified; keep recognized extensions; keep
extension-less module names longer than 3 characters that are not common
keywords. -/
def filterKeepAA (dep : String) : Bool :=
  if isVendorOrMinifiedAA dep then false
  else
    let low := pyLower dep.data
    if fileExtensionsAA.any (fun ext => ext.data.isSuffixOf low) then true
    else if !((pyBasename dep.data).contains '.') && decide (dep.data.length > 3) then
      !(commonNonDepsAA.any (fun w => w.data == low))
    else false

/-- `analyze-angular.py:_filter_dependencies` (lines 1976–2015): the
accumulating for-loop keeps exactly the tokens passing `filterKeepAA`, in
input order (the empty-input early return coincides with filtering). -/
def filterDependenciesAA (deps : List String) : List String :=
  deps.filter filterKeepAA

/-- `vendor_indicators` of `analyzer/utils.py:is_vendor_or_minified`. -/
def vendorIndicatorsU : List String :=
  ["vendor/", "/vendor/", "scripts/vendor",
   "angular-", "jquery", "bootstrap",
   "datatables", "footable", "flot",
   "jqvmap", "magnific", "mixitup",
   "slider", "touchspin", "qrcode", "barcode"]

/-- `minified_indicators` of `analyzer/utils.py:is_vendor_or_minified`. -/
def minifiedIndicatorsU : List String :=
  [".min.js", ".min.css", "-min.js", "-min.css",
   ".bundle.js", ".bundle.css", ".pack.js",
   ".compiled.js", ".prod.js"]

/-- `analyzer/utils.py:is_vendor_or_minified` (lines 5–37): no allow-list. -/
def isVendorOrMinifiedU (path : String) : Bool :=
  let low := pyLower path.data
  vendorIndicatorsU.any (fun ind => containsList ind.data low) ||
  minifiedIndicatorsU.any (fun ind => containsList ind.data low)

/-- `file_extensions` of `analyzer/utils.py:filter_dependencies`. -/
def fileExtensionsU : List String :=
  [".js", ".css", ".html", ".json", ".svg", ".png", ".jpg", ".jpeg", ".gif"]

/-- The per-token decision of `analyzer/utils.py:filter_dependencies`
(lines 57–65): skip vendor/minified, keep only recognized file extensions. -/
def filterKeepU (dep : String) : Bool :=
  if isVendorOrMinifiedU dep then false
  else fileExtensionsU.any (fun ext => ext.data.isSuffixOf (pyLower dep.data))

/-- `analyzer/utils.py:filter_dependencies` (lines 39–67). -/
def filterDependenciesU (deps : List String) : List String :=
  deps.filter filterKeepU

/-! ### Order-preserving deduplication (the `seen`-set idiom)

`_process_states` (analyze-angular.py lines 910–917) deduplicates
`resolve_dependencies` and `plugins` with
`seen = set(); [x for x in xs if not (x in seen or seen.add(x))]`:
keep a token iff it has not been seen yet.
-/

def seenDedupGo (seen : List String) : List String → List String
  | [] => []
  | x :: xs =>
    if x ∈ seen then seenDedupGo seen xs
    else x :: seenDedupGo (x :: seen) xs

/-- The `seen`-set deduplication idiom: first occurrence wins, input order kept. -/
def seenDedup (xs : List String) : List String := seenDedupGo [] xs

/-! ### Python `list(set(...))`

`_analyze_ng_route` (analyze-angular.py lines 656–659) and the modular
engine (`route_analyzer.py` lines 218–220 and 404–407) deduplicate with
`unique_deps = list(set(all_deps))`.  A CPython `set` of strings enumerates
in an order determined by the per-process randomized hash seed: the result
is some permutation of the distinct elements (i.e. of the first-occurrence
dedup), and no particular order is guaranteed — nor the same order between
two runs of the engine.  A `SetEnum` packages one process's enumeration
behaviour.
-/

structure SetEnum where
  f : List String → List String
  perm_dedup : ∀ xs, List.Perm (f xs) (seenDedup xs)

/-- A possible enumeration: insertion order (what a run may happen to produce). -/
def idEnum : SetEnum := ⟨seenDedup, fun _ => List.Perm.refl _⟩

/-- Another possible enumeration: reversed insertion order (another run,
another hash seed). -/
def revEnum : SetEnum := ⟨fun xs => (seenDedup xs).reverse, fun xs => (seenDedup xs).reverse_perm⟩

/-- `route_analyzer.py:analyze_routes` lines 397–407: combine route-specific
dependencies with the global fallback, then `unique_deps = list(set(all_deps))`
stored as the route's `resolve` / `resolve_dependencies`. -/
def routeResolveRA (e : SetEnum) (routeSpecific globalDeps : List String) : List String :=
  let allDeps := if routeSpecific.isEmpty && !globalDeps.isEmpty then globalDeps
                 else routeSpecific
  e.f allDeps

/-! ### The multi-line comment scanner

`_analyze_ui_router` (analyze-angular.py lines 407–425) records `(startLine,
endLine)` pairs for `/* ... */` blocks by a line scan; lines 437–448 and
481–486 then reject a state definition whose line lies inside a recorded
span.
-/

def mlcAux : Nat → Bool → Nat → List String → List (Nat × Nat)
  | _, _, _, [] => []
  | i, inC, start, l :: rest =>
    if strContains l "/*" && !(strContains l "*/") then
      mlcAux (i + 1) true i rest
    else if strContains l "*/" && inC then
      (start, i) :: mlcAux (i + 1) false start rest
    else
      mlcAux (i + 1) inC start rest

/-- The `multi_line_comments` list computed by `_analyze_ui_router`. -/
def multiLineComments (lines : List String) : List (Nat × Nat) :=
  mlcAux 0 false 0 lines

/-- The commented-out test applied to a state found at line index `j`
(`start <= line_count <= end`, lines 446 and 484). -/
def inAnySpan (spans : List (Nat × Nat)) (j : Nat) : Bool :=
  spans.any (fun se => decide (se.1 ≤ j) && decide (j ≤ se.2))

/-! ### Regex scanners

Every regular expression used by the source is rendered as a dedicated
scanner over `List Char`.  `scanFirst` mirrors `re.search` (try the pattern
at every position, leftmost match wins); `scanAll` mirrors `re.findall`
(leftmost, non-overlapping; on failure slide one character).
-/

def scanFirst {α : Type} (p : List Char → Option α) : List Char → Option α
  | [] => p []
  | s@(_ :: t) =>
    match p s with
    | some a => some a
    | none => scanFirst p t

def scanAllF {α : Type} (p : List Char → Option (α × List Char)) :
    Nat → List Char → List α
  | 0, _ => []
  | fuel + 1, s =>
    match p s with
    | some (a, rest) => a :: scanAllF p fuel rest
    | none =>
      match s with
      | [] => []
      | _ :: t => scanAllF p fuel t

def scanAll {α : Type} (p : List Char → Option (α × List Char)) (s : List Char) : List α :=
  scanAllF p (s.length + 1) s

/-- Expect the literal `lit`. -/
def pLit (lit : List Char) (s : List Char) : Option (List Char) :=
  if lit.isPrefixOf s then some (s.drop lit.length) else none

/-- Regex `\s*`. -/
def pWs0 (s : List Char) : List Char := s.dropWhile isPyWs

/-- Regex `\s+`. -/
def pWs1 : List Char → Option (List Char)
  | c :: rest => if isPyWs c then some (rest.dropWhile isPyWs) else none
  | [] => none

/-- Expect one specific character. -/
def pCh (c : Char) : List Char → Option (List Char)
  | x :: rest => if x = c then some rest else none
  | [] => none

/-- Regex character class `['"]`. -/
def pQuote : List Char → Option (List Char)
  | x :: rest => if isQuoteCh x then some rest else none
  | [] => none

/-- Regex `X+` for a character class `X`: a non-empty greedy run. -/
def pTake1 (p : Char → Bool) (s : List Char) : Option (List Char × List Char) :=
  let body := s.takeWhile p
  if body.isEmpty then none else some (body, s.drop body.length)

/-- Index of the last occurrence of a character. -/
def lastIdxOf (c : Char) (s : List Char) : Option Nat :=
  (s.foldl (fun (acc : Nat × Option Nat) d =>
    (acc.1 + 1, if d = c then some acc.1 else acc.2)) (0, none)).2

/-- Scanner for the depth-one block regex `\{[^{]*(?:\{[^}]*\}[^{]*)*\}`
(used for `views` and `resolve` blocks and the first complete-state
patterns): consume non-`{` runs and complete single-depth `{...}` pairs
greedily; the final `\}` is the last close brace found in the non-nested
runs (the regex engine's minimal give-back). -/
def braceScanF : Nat → List Char → Option Nat → List Char → (List Char × Option Nat)
  | 0, acc, lc, _ => (acc, lc)
  | fuel + 1, acc, lc, s =>
    let seg := s.takeWhile (fun c => c ≠ chLB)
    let rest := s.drop seg.length
    let lc2 := match lastIdxOf chRB seg with
      | some k => some (acc.length + k)
      | none => lc
    let acc2 := acc ++ seg
    match rest with
    | [] => (acc2, lc2)
    | c :: rest2 =>
      let b := rest2.takeWhile (fun d => d ≠ chRB)
      let rest3 := rest2.drop b.length
      match rest3 with
      | [] => (acc2, lc2)
      | d :: rest4 => braceScanF fuel (acc2 ++ (c :: (b ++ [d]))) lc2 rest4

def parseBraceD1 : List Char → Option (List Char × List Char)
  | c :: rest =>
    if c = chLB then
      match braceScanF (rest.length + 1) [] none rest with
      | (acc, some k) => some (chLB :: (acc.take k ++ [chRB]), rest.drop (k + 1))
      | (_, none) => none
    else none
  | [] => none

/-! ### Field decoders of `_process_states` (analyze-angular.py lines 701–946) -/

/-- Scanner for `KEY\s*:\s*['"]([^'"]+)['"]` (the quoted-field patterns for
`url`, `controller`, `templateUrl`, `template` at lines 764, 778, 790, 801). -/
def matchQuotedKey (key : List Char) (s : List Char) : Option String := do
  let s ← pLit key s
  let s := pWs0 s
  let s ← pCh ':' s
  let s := pWs0 s
  let s ← pQuote s
  let (body, s) ← pTake1 (fun c => !isQuoteCh c) s
  let _ ← pQuote s
  pure (String.mk body)

/-- Scanner for the alternative URL pattern `url\s*:\s*([^,\s\}\n]+)` (line 769). -/
def matchUrlAltAA (s : List Char) : Option String := do
  let s ← pLit ("url".data) s
  let s := pWs0 s
  let s ← pCh ':' s
  let s := pWs0 s
  let (body, _) ← pTake1 (fun c => !(c = ',' || isPyWs c || c = chRB)) s
  pure (String.mk body)

/-- URL decoding of `_process_states` (lines 763–774): quoted pattern first,
then the bare pattern, discarding `$`- and `function`-prefixed values. -/
def extractUrlAA (config : String) : Option String :=
  match scanFirst (matchQuotedKey ("url".data)) config.data with
  | some u => some u
  | none =>
    match scanFirst matchUrlAltAA config.data with
    | some v => if pyStartsWith v "$" || pyStartsWith v "function" then none else some v
    | none => none

/-- Regex class `[A-Za-z0-9_$]`. -/
def isIdentChAA (c : Char) : Bool := c.isAlphanum || c = '_' || c = '$'

/-- Scanner for `controller\s*:\s*([A-Za-z0-9_$]+)\s+as\s+` (line 779). -/
def matchCtrlAsAA (s : List Char) : Option String := do
  let s ← pLit ("controller".data) s
  let s := pWs0 s
  let s ← pCh ':' s
  let s := pWs0 s
  let (idp, s) ← pTake1 isIdentChAA s
  let s ← pWs1 s
  let s ← pLit ("as".data) s
  let _ ← pWs1 s
  pure (String.mk idp)

/-- The `(?:\.[A-Za-z0-9_$]+)*` tail of the simple-reference pattern. -/
def dotIdentsAA : Nat → List Char → List Char
  | 0, _ => []
  | fuel + 1, s =>
    match s with
    | c :: rest =>
      if c = '.' then
        match pTake1 isIdentChAA rest with
        | some (idp, rest2) => c :: (idp ++ dotIdentsAA fuel rest2)
        | none => []
      else []
    | [] => []

/-- Scanner for `controller\s*:\s*([A-Za-z0-9_$]+(?:\.[A-Za-z0-9_$]+)*)` (line 780). -/
def matchCtrlRefAA (s : List Char) : Option String := do
  let s ← pLit ("controller".data) s
  let s := pWs0 s
  let s ← pCh ':' s
  let s := pWs0 s
  let (idp, s) ← pTake1 isIdentChAA s
  pure (String.mk (idp ++ dotIdentsAA s.length s))

/-- Controller decoding of `_process_states` (lines 776–787): the three
`controller_patterns` tried in order, first match wins.  Note the plain
quoted pattern is tried before the `controllerAs` pattern. -/
def extractControllerAA (config : String) : Option String :=
  match scanFirst (matchQuotedKey ("controller".data)) config.data with
  | some c => some c
  | none =>
    match scanFirst matchCtrlAsAA config.data with
    | some c => some c
    | none => scanFirst matchCtrlRefAA config.data

/-- Scanner for the function-valued form
`KEY\s*:\s*function\s*\([^\)]*\)\s*\{\s*return\s*['"]([^'"]+)['"]`
(lines 795 and 853). -/
def matchFuncReturnAA (key : List Char) (s : List Char) : Option String := do
  let s ← pLit key s
  let s := pWs0 s
  let s ← pCh ':' s
  let s := pWs0 s
  let s ← pLit ("function".data) s
  let s := pWs0 s
  let s ← pCh '(' s
  let s := s.dropWhile (fun c => c ≠ ')')
  let s ← pCh ')' s
  let s := pWs0 s
  let s ← pCh chLB s
  let s := pWs0 s
  let s ← pLit ("return".data) s
  let s := pWs0 s
  let s ← pQuote s
  let (body, s) ← pTake1 (fun c => !isQuoteCh c) s
  let _ ← pQuote s
  pure (String.mk body)

/-- `templateUrl` decoding of `_process_states` (lines 789–797). -/
def extractTemplateUrlAA (config : String) : Option String :=
  match scanFirst (matchQuotedKey ("templateUrl".data)) config.data with
  | some u => some u
  | none => scanFirst (matchFuncReturnAA ("templateUrl".data)) config.data

/-- Body of the escape-tolerant template pattern
`['"]([^'"](?:\\[\s\S]|[^\\'"]*)*)['"]` (line 802): consume characters,
treating a backslash plus any character as a unit, until a closing quote. -/
def tmplEscBodyF : Nat → List Char → List Char → Option String
  | 0, _, _ => none
  | fuel + 1, acc, s =>
    match s with
    | [] => none
    | c :: rest =>
      if isQuoteCh c then some (String.mk acc)
      else if c = chBS then
        match rest with
        | [] => none
        | d :: rest2 => tmplEscBodyF fuel (acc ++ [c, d]) rest2
      else tmplEscBodyF fuel (acc ++ [c]) rest

def matchTemplateEscAA (s : List Char) : Option String := do
  let s ← pLit ("template".data) s
  let s := pWs0 s
  let s ← pCh ':' s
  let s := pWs0 s
  let s ← pQuote s
  match s with
  | [] => none
  | c :: rest =>
    if isQuoteCh c then none else tmplEscBodyF (rest.length + 1) [c] rest

/-- Inline `template` decoding of `_process_states` (lines 799–809). -/
def extractTemplateAA (config : String) : Option String :=
  match scanFirst (matchQuotedKey ("template".data)) config.data with
  | some t => some t
  | none => scanFirst matchTemplateEscAA config.data

/-- Scanner for `abstract\s*SEP\s*(true|false)` (lines 813 and 815). -/
def matchAbstractBoolAA (sep : Char) (s : List Char) : Option String :=
  (pLit ("abstract".data) s).bind fun s =>
  (pCh sep (pWs0 s)).bind fun s =>
  let s := pWs0 s
  if ("true".data).isPrefixOf s then some "true"
  else if ("false".data).isPrefixOf s then some "false"
  else none

/-- Scanner for `abstract\s*:\s*([A-Za-z0-9_$]+)` (line 814). -/
def matchAbstractIdentAA (s : List Char) : Option String := do
  let s ← pLit ("abstract".data) s
  let s := pWs0 s
  let s ← pCh ':' s
  let s := pWs0 s
  let (idp, _) ← pTake1 isIdentChAA s
  pure (String.mk idp)

/-- `abstract` decoding of `_process_states` (lines 811–829): three
patterns in order; the matched value is abstract iff it lowercases to
`true`, `!0` or `1`. -/
def extractAbstractAA (config : String) : Bool :=
  let v := match scanFirst (matchAbstractBoolAA ':') config.data with
    | some v => some v
    | none =>
      match scanFirst matchAbstractIdentAA config.data with
      | some v => some v
      | none => scanFirst (matchAbstractBoolAA '=') config.data
  match v with
  | some value =>
    let low := String.mk (pyLower value.data)
    low == "true" || low == "!0" || low == "1"
  | none => false

/-- Scanner for `KEY\s*:\s*` followed by a depth-one brace block
(`views` pattern line 832, `resolve` pattern line 865). -/
def matchKeyBraceD1 (key : List Char) (s : List Char) : Option (List Char × List Char) := do
  let s ← pLit key s
  let s := pWs0 s
  let s ← pCh ':' s
  let s := pWs0 s
  parseBraceD1 s

/-- Assoc-list update with Python-dict semantics (overwrite keeps position). -/
def updateAssoc {β : Type} (m : List (String × β)) (k : String) (v : β) :
    List (String × β) :=
  if m.any (fun p => p.1 == k) then
    m.map (fun p => if p.1 == k then (k, v) else p)
  else m ++ [(k, v)]

def lookupAssoc {β : Type} (m : List (String × β)) (k : String) : Option β :=
  (m.find? (fun p => p.1 == k)).map (fun p => p.2)

/-- A named view slot as decoded by `_process_states` (lines 838–859). -/
structure ViewAA where
  controller : Option String := none
  templateUrl : Option String := none
deriving DecidableEq, Inhabited

def decodeViewAA (blk : List Char) : ViewAA :=
  { controller := extractControllerAA (String.mk blk),
    templateUrl := extractTemplateUrlAA (String.mk blk) }

/-- Scanner for one view entry
`['"]([^'"]+)['"]\s*:\s*(\{[^{]*(?:\{[^}]*\}[^{]*)*\})` (line 837). -/
def pViewEntryAA (s : List Char) : Option ((String × List Char) × List Char) := do
  let s ← pQuote s
  let (namep, s) ← pTake1 (fun c => !isQuoteCh c) s
  let s ← pQuote s
  let s := pWs0 s
  let s ← pCh ':' s
  let s := pWs0 s
  let (blk, rest) ← parseBraceD1 s
  pure ((String.mk namep, blk), rest)

/-- `views` decoding of `_process_states` (lines 831–859): locate the views
block, decode each named entry, keep entries with at least one field. -/
def extractViewsAA (config : String) : List (String × ViewAA) :=
  match scanFirst (matchKeyBraceD1 ("views".data)) config.data with
  | none => []
  | some (vblk, _) =>
    (scanAll pViewEntryAA vblk).foldl
      (fun acc p =>
        let vo := decodeViewAA p.2
        if vo.controller.isSome || vo.templateUrl.isSome then updateAssoc acc p.1 vo
        else acc) []

/-- Scanner for `['"]([^'"]+)['"]` (quoted strings, used at lines 878 and 887). -/
def pQuotedStr (s : List Char) : Option (String × List Char) := do
  let s ← pQuote s
  let (body, s) ← pTake1 (fun c => !isQuoteCh c) s
  let s ← pQuote s
  pure (String.mk body, s)

/-- Scanner for `['"]([^'":]+)['"](?=\s*:|\s*,)` (resolve string deps, line 871). -/
def pStringDepAA (s : List Char) : Option (String × List Char) := do
  let s ← pQuote s
  let (body, s) ← pTake1 (fun c => !(isQuoteCh c || c = ':')) s
  let s ← pQuote s
  match pWs0 s with
  | c :: _ => if c = ':' || c = ',' then pure (String.mk body, s) else none
  | [] => none

/-- Scanner for `\[\s*([^\[\]]*)\s*\]` (dependency arrays, line 875),
yielding the quoted strings inside the array. -/
def pDepArrayAA (s : List Char) : Option (List String × List Char) := do
  let s ← pCh '[' s
  let s := pWs0 s
  let grp := s.takeWhile (fun c => !(c = '[' || c = ']'))
  let s2 := s.drop grp.length
  let s3 ← pCh ']' s2
  pure (scanAll pQuotedStr grp, s3)

/-- The optional `(?:\{\s*name\s*:\s*['"][^'"]*['"],\s*files\s*:\s*)?` part
of the `$ocLazyLoad` pattern (line 882). -/
def matchOcOptionalAA (s : List Char) : Option (List Char) := do
  let s ← pCh chLB s
  let s := pWs0 s
  let s ← pLit ("name".data) s
  let s := pWs0 s
  let s ← pCh ':' s
  let s := pWs0 s
  let s ← pQuote s
  let s := s.dropWhile (fun c => !isQuoteCh c)
  let s ← pQuote s
  let s ← pCh ',' s
  let s := pWs0 s
  let s ← pLit ("files".data) s
  let s := pWs0 s
  let s ← pCh ':' s
  pure (pWs0 s)

/-- Scanner for
`\$ocLazyLoad\.load\(\s*(?:\{...files\s*:\s*)?\[(.*?)\]\s*\)?` (line 882). -/
def pOcLazyAA (s : List Char) : Option (List Char × List Char) := do
  let s ← pLit ("$ocLazyLoad.load(".data) s
  let s := pWs0 s
  let s := (matchOcOptionalAA s).getD s
  let s ← pCh '[' s
  let grp := s.takeWhile (fun c => c ≠ ']')
  let s2 := s.drop grp.length
  let s3 ← pCh ']' s2
  let s4 := pWs0 s3
  let s5 := match pCh ')' s4 with | some r => r | none => s4
  pure (grp, s5)

/-- Resolve decoding of `_process_states` (lines 861–892): returns
(raw resolve dependency tokens, lazy-load plugin paths). -/
def extractResolveAA (config : String) : List String × List String :=
  match scanFirst (matchKeyBraceD1 ("resolve".data)) config.data with
  | none => ([], [])
  | some (rblk, _) =>
    let stringDeps := scanAll pStringDepAA rblk
    let arrayDeps := (scanAll pDepArrayAA rblk).flatten
    let ocGroups := scanAll pOcLazyAA rblk
    let plugins := ocGroups.foldl (fun acc grp =>
      acc ++ (scanAll pQuotedStr grp).filter
        (fun d => strContains d ".js" || strContains d "/js/" || strContains d "scripts/")) []
    (stringDeps ++ arrayDeps, plugins)

/-- Scanner for `redirectTo\s*:` (line 901). -/
def hasRedirectAA (config : String) : Bool :=
  (scanFirst (fun s => do
      let s ← pLit ("redirectTo".data) s
      let _ ← pCh ':' (pWs0 s)
      pure ()) config.data).isSome

/-! ### `_process_states` (analyze-angular.py lines 701–946) -/

/-- A route produced by `_process_states`. -/
structure RouteAA where
  name : String
  url : Option String := none
  controller : Option String := none
  templateUrl : Option String := none
  parent : String := ""
  abstract : Bool := false
  rtype : String := "ui-router"
  views : List (String × ViewAA) := []
  resolveDeps : List String := []
  plugins : List String := []
  template : Option String := none
  redirectTo : Bool := false
deriving DecidableEq, Inhabited

/-- `exclude_patterns` (lines 713–718). -/
def excludePatternsAA : List String :=
  ["root.access-denied", "root.not-found", "root.error",
   "root.login", "root.logout", "root.locked",
   "root.debug", "root.internal", "404", "error"]

/-- Python `s.endswith(suffix)`. -/
def pyEndsWith (s suf : String) : Bool := suf.data.isSuffixOf s.data

/-- The exclusion test (lines 737–738): exact name, or dotted-prefix when the
pattern ends with a dot (none of the configured patterns do). -/
def excludedByPatternAA (name : String) : Bool :=
  excludePatternsAA.any (fun pat =>
    pat == name || (pyEndsWith pat "." && pyStartsWith name pat))

/-- The commented-state test (line 759). -/
def stateCommentedAA (config : String) : Bool :=
  let st := String.mk (pyStrip config.data)
  pyStartsWith st "//" || pyStartsWith st "/*" ||
  (strContains config "/*" && strContains config "*/")

/-- `name.rsplit('.', 1)[0]` for dotted names (line 724). -/
def parentOfAA (name : String) : String :=
  match lastIdxOf '.' name.data with
  | some k => String.mk (name.data.take k)
  | none => name

/-- `parent_map` (lines 721–725): dotted state names mapped to their prefix. -/
def parentMapAA (sts : List (String × String)) : List (String × String) :=
  sts.foldl (fun acc p =>
    if strContains p.1 "." then updateAssoc acc p.1 (parentOfAA p.1) else acc) []

/-- Decode one state's configuration into a route (lines 742–917, the pure
field-decoding part of the per-state loop, including the `$`-prefilter and
`seen`-set deduplication of dependencies and plugins at lines 907–917). -/
def decodeStateAA (pm : List (String × String)) (name config : String) : RouteAA :=
  let rp := extractResolveAA config
  { name := name,
    url := extractUrlAA config,
    controller := extractControllerAA config,
    templateUrl := extractTemplateUrlAA config,
    parent := (lookupAssoc pm name).getD "",
    abstract := extractAbstractAA config,
    rtype := "ui-router",
    views := extractViewsAA config,
    resolveDeps := seenDedup (rp.1.filter (fun d => !(pyStartsWith d "$"))),
    plugins := if rp.2.isEmpty then rp.2 else seenDedup rp.2,
    template := extractTemplateAA config,
    redirectTo := hasRedirectAA config }

/-- The template-validation acceptance test (lines 919–936): routes without
template, templateUrl and views are kept only when abstract, named `root`,
redirecting, a parent of another state, or carrying a URL. -/
def stateValidationOkAA (parents : List String) (r : RouteAA) : Bool :=
  let skip := r.abstract || r.name == "root" || !r.views.isEmpty ||
              r.redirectTo || parents.contains r.name
  if !optTruthy r.template && !optTruthy r.templateUrl && r.views.isEmpty && !skip then
    !(!optTruthy r.url && !r.abstract)
  else true

/-- The per-state loop of `_process_states`: exclusion by pattern, commented
check, field decoding, duplicate-name skip (`added_state_names`), template
validation, append. -/
def processStatesAux (pm : List (String × String)) (parents : List String) :
    List String → List (String × String) → List RouteAA
  | _, [] => []
  | seen, (name, config) :: rest =>
    if excludedByPatternAA name then processStatesAux pm parents seen rest
    else if stateCommentedAA config then processStatesAux pm parents seen rest
    else
      let r := decodeStateAA pm name config
      if name ∈ seen then processStatesAux pm parents seen rest
      else if stateValidationOkAA parents r then
        r :: processStatesAux pm parents (name :: seen) rest
      else processStatesAux pm parents seen rest

/-- `_process_states` on one file's extracted `(name, config)` list. -/
def processStates (sts : List (String × String)) : List RouteAA :=
  processStatesAux (parentMapAA sts) ((parentMapAA sts).map (fun p => p.2)) [] sts

/-- The accumulation of `AngularAnalyzer.analyze_routes` (lines 270–327):
`self.routes` grows by one `_analyze_ui_router`/`_process_states` call per
route-configuration file; each call has its own fresh `added_state_names`. -/
def engineRoutes (files : List (List (String × String))) : List RouteAA :=
  files.foldl (fun acc sts => acc ++ processStates sts) []

/-! ### The modular engine: `analyzer/route_analyzer.py` -/

/-- Scanner for `\s+as\s+`. -/
def matchWsAsWs (s : List Char) : Option (List Char) := do
  let s ← pWs1 s
  let s ← pLit ("as".data) s
  pWs1 s

/-- Greedy split of a quoted body at the last `\s+as\s+` with non-empty
name and alias, as the backtracking of
`controller\s*:\s*['"]([^'"]+)\s+as\s+([^'"]+)['"]` produces. -/
def casSplitF : Nat → List Char → List Char → Option (List Char) → Option (List Char)
  | 0, _, _, best => best
  | fuel + 1, pre, s, best =>
    let best2 :=
      if !pre.isEmpty then
        match matchWsAsWs s with
        | some suffix => if !suffix.isEmpty then some pre else best
        | none => best
      else best
    match s with
    | [] => best2
    | c :: rest => casSplitF fuel (pre ++ [c]) rest best2

/-- Scanner for `controller\s*:\s*['"]([^'"]+)\s+as\s+([^'"]+)['"]`
(route_analyzer.py line 261), keeping group 1. -/
def matchCtrlAsRA (s : List Char) : Option String := do
  let s ← pLit ("controller".data) s
  let s := pWs0 s
  let s ← pCh ':' s
  let s := pWs0 s
  let s ← pQuote s
  let qbody := s.takeWhile (fun c => !isQuoteCh c)
  let s2 := s.drop qbody.length
  let _ ← pQuote s2
  let pre ← casSplitF (qbody.length + 1) [] qbody none
  pure (String.mk pre)

/-- Scanner for `controller\s*:\s*([A-Za-z0-9_$]+)` (route_analyzer.py line 273). -/
def matchCtrlIdentRA (s : List Char) : Option String := do
  let s ← pLit ("controller".data) s
  let s := pWs0 s
  let s ← pCh ':' s
  let s := pWs0 s
  let (idp, _) ← pTake1 isIdentChAA s
  pure (String.mk idp)

/-- `re.match(r'^\s*controller\s*:', line)` or
`re.match(r',\s*controller\s*:', line)` (route_analyzer.py line 257). -/
def lineStartsCtrlRA (line : List Char) : Bool :=
  (do
    let s ← pLit ("controller".data) (pWs0 line)
    let _ ← pCh ':' (pWs0 s)
    pure ()).isSome ||
  (do
    let s ← pCh ',' line
    let s ← pLit ("controller".data) (pWs0 s)
    let _ ← pCh ':' (pWs0 s)
    pure ()).isSome

/-- Controller decoding of `route_analyzer.py:analyze_routes`
(lines 248–276): line-by-line; on a line introducing `controller:`, use the
`Name as alias` pattern when the line contains `as` (keeping only the name),
otherwise the quoted then bare-identifier patterns. -/
def extractControllerRA (config : String) : Option String :=
  go (pyLines config)
where
  go : List String → Option String
  | [] => none
  | l :: rest =>
    let line := String.mk (pyStrip l.data)
    if lineStartsCtrlRA line.data then
      if strContains line "as" then
        match scanFirst matchCtrlAsRA line.data with
        | some c => some c
        | none => go rest
      else
        match scanFirst (matchQuotedKey ("controller".data)) line.data with
        | some c => some c
        | none =>
          match scanFirst matchCtrlIdentRA line.data with
          | some c =>
            if ["true", "false", "null", "undefined"].contains c then go rest
            else some c
          | none => go rest
    else go rest

/-- Outcome of re-verifying one state against the raw source. -/
structure VerifyRes where
  controller : Bool := false
  template : Bool := false
deriving DecidableEq, Inhabited

/-- Scanner for the verification pattern
`\.state\(\s*['"](NAME)['"](?:\s*,\s*|\s*,\s*\n\s*)(\{[\s\S]*?\})`
(route_analyzer.py line 553; also pattern 1 of
`analyze-angular.py:_verify_state_definition`, line 2118).  The lazy block
group runs to the first close brace. -/
def pStateCfgLazy (name : List Char) (s : List Char) : Option ((String × String) × List Char) := do
  let s ← pLit (".state(".data) s
  let s := pWs0 s
  let s ← pQuote s
  let s ← pLit name s
  let s ← pQuote s
  let s := pWs0 s
  let s ← pCh ',' s
  let s := pWs0 s
  let s ← pCh chLB s
  let body := s.takeWhile (fun c => c ≠ chRB)
  let s2 := s.drop body.length
  let s3 ← pCh chRB s2
  pure ((String.mk name, String.mk (chLB :: (body ++ [chRB]))), s3)

/-- `route_analyzer.py:verify_state_definition` (lines 536–567): find the
state's declaration and test literal presence of `controller:` /
`template:` (or the spaced variants) in the lazily matched config. -/
def verifyStateDefinitionRA (stateName content : String) : VerifyRes :=
  (scanAll (pStateCfgLazy stateName.data) content.data).foldl
    (fun acc p =>
      if p.1 == stateName then
        { controller := acc.controller || strContains p.2 "controller:" ||
                        strContains p.2 "controller :",
          template := acc.template || strContains p.2 "template:" ||
                      strContains p.2 "template :" }
      else acc)
    {}

/-- A route as assembled by `route_analyzer.py:analyze_routes` (lines 229–241). -/
structure RouteRA where
  name : String
  url : Option String := none
  controller : Option String := none
  templateUrl : Option String := none
  template : Option String := none
  views : List (String × ViewAA) := []
  resolve : List String := []
  resolveDeps : List String := []
  parent : Option String := none
  abstract : Bool := false
  rtype : String := "ui-router"
deriving DecidableEq, Inhabited

/-- The verification fix-up of `route_analyzer.py:analyze_routes`
(lines 420–434): null the controller/template when the re-scan found no
literal backing and the field is truthy. -/
def verifyFixRA (content : String) (r : RouteRA) : RouteRA :=
  let v := verifyStateDefinitionRA r.name content
  { r with
    controller := if !v.controller && optTruthy r.controller then none else r.controller,
    template := if !v.template && optTruthy r.template then none else r.template }

/-- Scanner for `\.state\s*\(\s*['"]([^'"]+)['"]` (route_analyzer.py line 110). -/
def matchStateNameRA (s : List Char) : Option String := do
  let s ← pLit (".state".data) s
  let s := pWs0 s
  let s ← pCh '(' s
  let s := pWs0 s
  let s ← pQuote s
  let (body, s) ← pTake1 (fun c => !isQuoteCh c) s
  let _ ← pQuote s
  pure (String.mk body)

/-- Candidate positions for the final `\}` of `,\s*(\{.*\})\s*\)`
(greedy `.*`, so the last close brace that is followed by optional
whitespace and a close parenthesis; without DOTALL the dot stops at a
newline). -/
def lastValidCloseF (dotAll : Bool) : Nat → Nat → List Char → Option Nat → Option Nat
  | 0, _, _, best => best
  | fuel + 1, idx, s, best =>
    match s with
    | [] => best
    | c :: rest =>
      if !dotAll && c = chNL then best
      else
        let best2 :=
          if c = chRB then
            match pWs0 rest with
            | d :: _ => if d = ')' then some idx else best
            | [] => best
          else best
        lastValidCloseF dotAll fuel (idx + 1) rest best2

/-- Scanner for the config-extraction pattern `,\s*(\{.*\})\s*\)`
(route_analyzer.py line 131; analyze-angular.py lines 498 and 524, the
latter with `[\s\S]*`, i.e. `dotAll = true`). -/
def commaBlockParenSearch (dotAll : Bool) (s : List Char) : Option String := do
  let s ← pCh ',' s
  let s := pWs0 s
  let s ← pCh chLB s
  match lastValidCloseF dotAll (s.length + 1) 0 s none with
  | some j => pure (String.mk (chLB :: ((s.take j) ++ [chRB])))
  | none => none

/-- The line-by-line fallback extractor of `route_analyzer.py:analyze_routes`
(lines 93–139): skip commented lines; on a `.state(` line open a block and
track brace depth; emit the `(name, config)` pair when the block closes; a
block that never closes is dropped when the file ends. -/
def lineByLineRAGo : Option (String × String × Int) → List String → List (String × String)
  | _, [] => []
  | st, l :: rest =>
    let stripped := String.mk (pyStrip l.data)
    if pyStartsWith stripped "//" ||
       (pyStartsWith stripped "/*" && strContains stripped "*/") then
      lineByLineRAGo st rest
    else
      match st with
      | none =>
        if strContains l ".state(" then
          match scanFirst matchStateNameRA l.data with
          | some nm =>
            let bc : Int := (l.data.count chLB : Int) - (l.data.count chRB : Int)
            if bc = 0 && pyEndsWith (String.mk (pyRStrip l.data)) ")" then
              (nm, l) :: lineByLineRAGo none rest
            else
              lineByLineRAGo (some (nm, l, bc)) rest
          | none => lineByLineRAGo none rest
        else lineByLineRAGo none rest
      | some (nm, blk, bc) =>
        let blk2 := blk ++ l ++ "\n"
        let bc2 := bc + (l.data.count chLB : Int) - (l.data.count chRB : Int)
        if bc2 ≤ 0 && (strContains l ")" || strContains l "\x7d)") then
          match scanFirst (commaBlockParenSearch true) blk2.data with
          | some cfg => (nm, cfg) :: lineByLineRAGo none rest
          | none => lineByLineRAGo none rest
        else lineByLineRAGo (some (nm, blk2, bc2)) rest

def lineByLineRA (lines : List String) : List (String × String) :=
  lineByLineRAGo none lines

/-! ### The monolithic engine's fallback extractor and verification pass -/

/-- Regex `\w`. -/
def isWordCh (c : Char) : Bool := c.isAlphanum || c = '_'

/-- Scanner for `(?:\.|\$stateProvider\.)state\s*\(\s*['"]([^'"]+)['"]`
(the anchor of `state_pattern`, analyze-angular.py line 344). -/
def pStateAnchorAA (s : List Char) : Option (String × List Char) :=
  let afterAnchor :=
    match pLit (".state".data) s with
    | some r => some r
    | none => pLit ("$stateProvider.state".data) s
  do
    let s ← afterAnchor
    let s := pWs0 s
    let s ← pCh '(' s
    let s := pWs0 s
    let s ← pQuote s
    let (body, s) ← pTake1 (fun c => !isQuoteCh c) s
    let s ← pQuote s
    pure (String.mk body, s)

/-- `re.findall(state_pattern, content)` with the `(?<!\w)` lookbehind
(analyze-angular.py lines 344–347).  The previous-character argument after a
match is the closing quote (a non-word character). -/
def stateMatchesAAGo : Nat → Option Char → List Char → List String
  | 0, _, _ => []
  | fuel + 1, prev, s =>
    match s with
    | [] => []
    | c :: t =>
      let ok := match prev with
        | some p => !isWordCh p
        | none => true
      match (if ok then pStateAnchorAA s else none) with
      | some (nm, rest) => nm :: stateMatchesAAGo fuel (some chQ2) rest
      | none => stateMatchesAAGo fuel (some c) t

def stateMatchesAA (content : String) : List String :=
  stateMatchesAAGo (content.data.length + 1) none content.data

/-- The `state_analysis.txt` diagnostic "Potential states not processed"
(analyze-angular.py lines 556–558): raw pattern matches minus extracted
names. -/
def unprocessedNamesAA (content : String) (extractedNames : List String) : List String :=
  (seenDedup (stateMatchesAA content)).filter (fun n => !(extractedNames.contains n))

/-- Forward block scan of the fallback extractor (analyze-angular.py lines
508–518): accumulate lines while tracking brace depth; `none` when the file
ends before the block closes (the candidate is then discarded, since
`block_end` never moves past `block_start`). -/
def aaScanFwd : Int → List String → List String → Option (List String)
  | _, _, [] => none
  | bc, acc, l :: rest =>
    let acc2 := acc ++ [l]
    let bc2 := bc + ((l.data.count chLB : Int) - (l.data.count chRB : Int))
    if bc2 ≤ 0 && (strContains l ")" || strContains l "\x7d)") then some acc2
    else aaScanFwd bc2 acc2 rest

def joinNL : List String → String
  | [] => ""
  | [s] => s
  | s :: rest => s ++ "\n" ++ joinNL rest

/-- Per-name body of the fallback extractor's inner loop
(analyze-angular.py lines 475–529). -/
def aaFallbackName (spans : List (Nat × Nat)) (i : Nat) (line : String)
    (laterLines : List String) (nm : String)
    (acc : List String × List (String × String)) :
    List String × List (String × String) :=
  let seen := acc.1
  let extr := acc.2
  if strContains line (".state(\x22" ++ nm ++ "\x22") ||
     strContains line (".state('" ++ nm ++ "'") then
    if strContains line "//" &&
       pyFind line.data ("//".data) < pyFind line.data (".state".data) then acc
    else if inAnySpan spans i then acc
    else
      let bc : Int := (line.data.count chLB : Int) - (line.data.count chRB : Int)
      if strContains line "\x7b" && strContains line "\x7d" &&
         pyRFind line.data [chLB] < pyRFind line.data [chRB] && bc = 0 then
        match scanFirst (commaBlockParenSearch false) line.data with
        | some cfg => if nm ∈ seen then acc else (nm :: seen, extr ++ [(nm, cfg)])
        | none => acc
      else if bc > 0 then
        match aaScanFwd bc [] laterLines with
        | some blockRest =>
          match scanFirst (commaBlockParenSearch true)
              (joinNL (line :: blockRest)).data with
          | some cfg => if nm ∈ seen then acc else (nm :: seen, extr ++ [(nm, cfg)])
          | none => acc
        | none => acc
      else acc
  else acc

def aaFallbackGo (missing : List String) (spans : List (Nat × Nat)) :
    Nat → List String → List (String × String) → List String → List (String × String)
  | _, _, extr, [] => extr
  | i, seen, extr, l :: rest =>
    let se := missing.foldl (fun acc nm => aaFallbackName spans i l rest nm acc) (seen, extr)
    aaFallbackGo missing spans (i + 1) se.1 se.2 rest

/-- The line-by-line fallback of `_analyze_ui_router` (analyze-angular.py
lines 468–529), run for the names the regex pass missed.  `missing` is
iterated in list order (the Python source iterates a set). -/
def aaFallbackExtract (lines missing : List String) (spans : List (Nat × Nat))
    (seen0 : List String) : List (String × String) :=
  aaFallbackGo missing spans 0 seen0 [] lines

/-- Scanner for `name\s*:\s*['"]NAME['"]` (inner part of verification
pattern 2, analyze-angular.py line 2119). -/
def matchNameKeyAA (name : List Char) (s : List Char) : Option (List Char) := do
  let s ← pLit ("name".data) s
  let s := pWs0 s
  let s ← pCh ':' s
  let s := pWs0 s
  let s ← pQuote s
  let s ← pLit name s
  pQuote s

def scanFirstRest (p : List Char → Option (List Char)) : List Char → Option (List Char)
  | [] => p []
  | s@(_ :: t) =>
    match p s with
    | some r => some r
    | none => scanFirstRest p t

/-- Scanner for verification pattern 2,
`\.state\(\s*\{[\s\S]*?name\s*:\s*['"](NAME)['"][\s\S]*?\}`
(analyze-angular.py line 2119): a single capture group, the name. -/
def pStatePat2AA (name : List Char) (s : List Char) : Option (String × List Char) := do
  let s ← pLit (".state(".data) s
  let s := pWs0 s
  let s ← pCh chLB s
  let s ← scanFirstRest (matchNameKeyAA name) s
  let rest := s.dropWhile (fun c => c ≠ chRB)
  match rest with
  | _ :: rest2 => pure (String.mk name, rest2)
  | [] => none

/-- The lazy `([\s\S]*?)\}\s*\)` tail of verification pattern 3: content up
to the earliest close brace followed by optional whitespace and `)`. -/
def earliestCloseParenF : Nat → List Char → List Char → Option (String × List Char)
  | 0, _, _ => none
  | fuel + 1, acc, s =>
    match s with
    | [] => none
    | c :: rest =>
      if c = chRB then
        match pWs0 rest with
        | d :: t2 =>
          if d = ')' then some (String.mk acc, t2)
          else earliestCloseParenF fuel (acc ++ [c]) rest
        | [] => earliestCloseParenF fuel (acc ++ [c]) rest
      else earliestCloseParenF fuel (acc ++ [c]) rest

/-- Scanner for verification pattern 3,
`\.state\(['"](NAME)['"][\s\S]*?\{([\s\S]*?)\}\s*\)`
(analyze-angular.py line 2120): group 2 is the content between the braces. -/
def pStatePat3AA (name : List Char) (s : List Char) : Option ((String × String) × List Char) := do
  let s ← pLit (".state(".data) s
  let s ← pQuote s
  let s ← pLit name s
  let s ← pQuote s
  let s := s.dropWhile (fun c => c ≠ chLB)
  let s ← pCh chLB s
  let (grp, rest) ← earliestCloseParenF (s.length + 1) [] s
  pure ((String.mk name, grp), rest)

/-- `analyze-angular.py:_verify_state_definition` (lines 2100–2144): three
patterns, flags accumulated over every match whose name equals the state
name.  Pattern 2 captures a single group, so the loop's `match[0]` /
`match[1]` index characters of the captured name; its config is therefore
at most one character and never sets a flag. -/
def verifyStateDefinitionAA (stateName content : String) : VerifyRes :=
  let step := fun (acc : VerifyRes) (nc : String × String) =>
    if nc.1 == stateName then
      { controller := acc.controller || strContains nc.2 "controller:" ||
                      strContains nc.2 "controller :",
        template := acc.template || strContains nc.2 "template:" ||
                    strContains nc.2 "template :" }
    else acc
  let acc1 := (scanAll (pStateCfgLazy stateName.data) content.data).foldl step {}
  let acc2 := (scanAll (pStatePat2AA stateName.data) content.data).foldl
    (fun acc s =>
      let nm := String.mk (s.data.take 1)
      let cfg := if s.data.length > 1 then String.mk [s.data.getD 1 ' '] else ""
      step acc (nm, cfg)) acc1
  (scanAll (pStatePat3AA stateName.data) content.data).foldl step acc2

/-- The per-route fix-up of `analyze-angular.py:_verify_state_definitions`
(lines 2039–2059): null `controller` / `template` when the re-scan found no
literal backing and the field is truthy; no other field is touched. -/
def verifyFixAA (content : String) (r : RouteAA) : RouteAA :=
  let v := verifyStateDefinitionAA r.name content
  { r with
    controller := if !v.controller && optTruthy r.controller then none else r.controller,
    template := if !v.template && optTruthy r.template then none else r.template }

/-! ### Supporting lemmas -/

theorem seenDedupGo_mem {a : String} {seen xs : List String}
    (h : a ∈ seenDedupGo seen xs) : a ∈ xs ∧ a ∉ seen := by
  induction xs generalizing seen with
  | nil => simp [seenDedupGo] at h
  | cons x xs ih =>
    simp only [seenDedupGo] at h
    by_cases hx : x ∈ seen
    · simp only [if_pos hx] at h
      rcases ih h with ⟨h1, h2⟩
      exact ⟨List.mem_cons_of_mem _ h1, h2⟩
    · simp only [if_neg hx] at h
      rcases List.mem_cons.mp h with rfl | h
      · exact ⟨List.mem_cons_self _ _, hx⟩
      · rcases ih h with ⟨h1, h2⟩
        refine ⟨List.mem_cons_of_mem _ h1, fun hc => h2 (List.mem_cons_of_mem _ hc)⟩

theorem seenDedupGo_nodup (seen xs : List String) : (seenDedupGo seen xs).Nodup := by
  induction xs generalizing seen with
  | nil => simp [seenDedupGo]
  | cons x xs ih =>
    simp only [seenDedupGo]
    by_cases hx : x ∈ seen
    · simp only [if_pos hx]; exact ih seen
    · simp only [if_neg hx]
      refine List.nodup_cons.mpr ⟨fun hc => ?_, ih (x :: seen)⟩
      exact (seenDedupGo_mem hc).2 (List.mem_cons_self _ _)

theorem seenDedupGo_sublist (seen xs : List String) :
    List.Sublist (seenDedupGo seen xs) xs := by
  induction xs generalizing seen with
  | nil => simp [seenDedupGo]
  | cons x xs ih =>
    simp only [seenDedupGo]
    by_cases hx : x ∈ seen
    · simp only [if_pos hx]; exact List.Sublist.cons _ (ih seen)
    · simp only [if_neg hx]; exact List.Sublist.cons₂ _ (ih (x :: seen))

theorem seenDedupGo_mem_of_mem {a : String} {seen xs : List String}
    (h : a ∈ xs) (hs : a ∉ seen) : a ∈ seenDedupGo seen xs := by
  induction xs generalizing seen with
  | nil => simp at h
  | cons x xs ih =>
    simp only [seenDedupGo]
    by_cases hx : x ∈ seen
    · simp only [if_pos hx]
      rcases List.mem_cons.mp h with rfl | h
      · exact absurd hx hs
      · exact ih h hs
    · simp only [if_neg hx]
      rcases List.mem_cons.mp h with rfl | h
      · exact List.mem_cons_self _ _
      · by_cases hax : a = x
        · subst hax; exact List.mem_cons_self _ _
        · refine List.mem_cons_of_mem _ (ih h ?_)
          simp only [List.mem_cons, not_or]
          exact ⟨hax, hs⟩

theorem seenDedup_mem_iff (a : String) (xs : List String) :
    a ∈ seenDedup xs ↔ a ∈ xs :=
  ⟨fun h => (seenDedupGo_mem h).1,
   fun h => seenDedupGo_mem_of_mem h (List.not_mem_nil a)⟩

theorem seenDedupGo_congr {s1 s2 : List String} (xs : List String)
    (h : ∀ a, a ∈ s1 ↔ a ∈ s2) : seenDedupGo s1 xs = seenDedupGo s2 xs := by
  induction xs generalizing s1 s2 with
  | nil => rfl
  | cons x xs ih =>
    simp only [seenDedupGo]
    by_cases hx : x ∈ s1
    · rw [if_pos hx, if_pos ((h x).mp hx)]
      exact ih h
    · rw [if_neg hx, if_neg (fun hc => hx ((h x).mpr hc))]
      refine congrArg _ (ih fun a => ?_)
      simp only [List.mem_cons]
      exact or_congr Iff.rfl (h a)

/-- First-encounter-order characterization: the idiom keeps the head and
deduplicates the tail with all later copies of the head removed. -/
theorem seenDedupGo_cons_seen (x : String) (xs : List String) (seen : List String) :
    seenDedupGo (x :: seen) xs = seenDedupGo seen (xs.filter (fun y => y != x)) := by
  induction xs generalizing seen with
  | nil => rfl
  | cons y ys ih =>
    by_cases hyx : y = x
    · subst hyx
      simp only [seenDedupGo, List.filter_cons, bne_self_eq_false,
        if_pos (List.mem_cons_self y seen)]
      exact ih seen
    · have hfil : (y :: ys).filter (fun z => z != x) = y :: ys.filter (fun z => z != x) := by
        simp [List.filter_cons, bne_iff_ne, hyx]
      rw [hfil]
      by_cases hys : y ∈ seen
      · have h1 : y ∈ x :: seen := List.mem_cons_of_mem _ hys
        simp only [seenDedupGo, if_pos h1, if_pos hys]
        exact ih seen
      · have h1 : y ∉ x :: seen := by
          simp only [List.mem_cons, not_or]; exact ⟨hyx, hys⟩
        simp only [seenDedupGo, if_neg h1, if_neg hys]
        refine congrArg _ ?_
        have hcomm : seenDedupGo (y :: x :: seen) ys = seenDedupGo (x :: y :: seen) ys :=
          seenDedupGo_congr ys (by intro a; simp only [List.mem_cons]; tauto)
        rw [hcomm, ih (y :: seen)]

theorem seenDedup_cons (x : String) (xs : List String) :
    seenDedup (x :: xs) = x :: seenDedup (xs.filter (fun y => y != x)) := by
  simp only [seenDedup, seenDedupGo, if_neg (List.not_mem_nil x)]
  exact congrArg _ (seenDedupGo_cons_seen x xs [])

theorem routeResolveRA_nodup (e : SetEnum) (s g : List String) :
    (routeResolveRA e s g).Nodup :=
  ((e.perm_dedup _).nodup_iff).mpr (seenDedupGo_nodup [] _)

/-- Every span the scanner records closes on a line that contains a `*/`:
an unterminated `/*` never yields a span. -/
theorem mlcAux_end_closes {s e : Nat} :
    ∀ (lines : List String) (i : Nat) (inC : Bool) (st : Nat),
      (s, e) ∈ mlcAux i inC st lines →
      i ≤ e ∧ e - i < lines.length ∧ strContains (lines.getD (e - i) "") "*/" = true := by
  intro lines
  induction lines with
  | nil => intro i inC st h; simp [mlcAux] at h
  | cons l rest ih =>
    intro i inC st h
    simp only [mlcAux] at h
    by_cases h1 : (strContains l "/*" && !(strContains l "*/")) = true
    · rw [if_pos h1] at h
      rcases ih (i + 1) true i h with ⟨ha, hb, hc⟩
      have he : e - i = (e - (i + 1)) + 1 := by omega
      refine ⟨by omega, by simp only [List.length_cons]; omega, ?_⟩
      rw [he]
      simpa using hc
    · rw [if_neg h1] at h
      by_cases h2 : (strContains l "*/" && inC) = true
      · rw [if_pos h2] at h
        rcases List.mem_cons.mp h with hhead | htail
        · have he : e = i := congrArg Prod.snd hhead
          subst he
          refine ⟨Nat.le_refl _, by simp, ?_⟩
          simp only [Nat.sub_self, List.getD_cons_zero]
          exact (Bool.and_elim_left h2)
        · rcases ih (i + 1) false st htail with ⟨ha, hb, hc⟩
          have he : e - i = (e - (i + 1)) + 1 := by omega
          refine ⟨by omega, by simp only [List.length_cons]; omega, ?_⟩
          rw [he]
          simpa using hc
      · rw [if_neg h2] at h
        rcases ih (i + 1) inC st h with ⟨ha, hb, hc⟩
        have he : e - i = (e - (i + 1)) + 1 := by omega
        refine ⟨by omega, by simp only [List.length_cons]; omega, ?_⟩
        rw [he]
        simpa using hc

theorem decodeStateAA_name (pm : List (String × String)) (name config : String) :
    (decodeStateAA pm name config).name = name := rfl

theorem decodeStateAA_deps_nodup (pm : List (String × String)) (name config : String) :
    (decodeStateAA pm name config).resolveDeps.Nodup ∧
    (decodeStateAA pm name config).plugins.Nodup := by
  refine ⟨seenDedupGo_nodup [] _, ?_⟩
  show (if (extractResolveAA config).2.isEmpty then (extractResolveAA config).2
        else seenDedup (extractResolveAA config).2).Nodup
  cases h : (extractResolveAA config).2 with
  | nil => simp
  | cons a t => simpa using seenDedupGo_nodup [] (a :: t)

theorem processStatesAux_mem {pm : List (String × String)} {parents : List String}
    {seen : List String} {sts : List (String × String)} {r : RouteAA}
    (h : r ∈ processStatesAux pm parents seen sts) :
    r.name ∉ seen ∧ ∃ n c, r = decodeStateAA pm n c := by
  induction sts generalizing seen with
  | nil => simp [processStatesAux] at h
  | cons hd rest ih =>
    obtain ⟨n, c⟩ := hd
    simp only [processStatesAux] at h
    by_cases h1 : excludedByPatternAA n = true
    · rw [if_pos h1] at h; exact ih h
    · rw [if_neg h1] at h
      by_cases h2 : stateCommentedAA c = true
      · rw [if_pos h2] at h; exact ih h
      · rw [if_neg h2] at h
        by_cases h3 : n ∈ seen
        · rw [if_pos h3] at h; exact ih h
        · rw [if_neg h3] at h
          by_cases h4 : stateValidationOkAA parents (decodeStateAA pm n c) = true
          · rw [if_pos h4] at h
            rcases List.mem_cons.mp h with rfl | htail
            · exact ⟨by simpa [decodeStateAA_name] using h3, n, c, rfl⟩
            · rcases ih htail with ⟨hns, hex⟩
              exact ⟨fun hc => hns (List.mem_cons_of_mem _ hc), hex⟩
          · rw [if_neg h4] at h; exact ih h

theorem processStatesAux_names_nodup (pm : List (String × String))
    (parents : List String) (seen : List String) (sts : List (String × String)) :
    ((processStatesAux pm parents seen sts).map RouteAA.name).Nodup := by
  induction sts generalizing seen with
  | nil => simp [processStatesAux]
  | cons hd rest ih =>
    obtain ⟨n, c⟩ := hd
    simp only [processStatesAux]
    by_cases h1 : excludedByPatternAA n = true
    · rw [if_pos h1]; exact ih seen
    · rw [if_neg h1]
      by_cases h2 : stateCommentedAA c = true
      · rw [if_pos h2]; exact ih seen
      · rw [if_neg h2]
        by_cases h3 : n ∈ seen
        · rw [if_pos h3]; exact ih seen
        · rw [if_neg h3]
          by_cases h4 : stateValidationOkAA parents (decodeStateAA pm n c) = true
          · rw [if_pos h4]
            simp only [List.map_cons]
            refine List.nodup_cons.mpr ⟨?_, ih (n :: seen)⟩
            intro hc
            rcases List.mem_map.mp hc with ⟨r, hr, hname⟩
            have := (processStatesAux_mem hr).1
            rw [hname] at this
            exact this (by simp [decodeStateAA_name, List.mem_cons])
          · rw [if_neg h4]; exact ih seen

/-! ### Claims C2 and C9 -/

/-- Claim C2 counterexample: on the input tokens
`['jquery.min.js', 'app.module.js', 'ui-router', '$http', 'checkout.service.js']`
the dependency filter (`_filter_dependencies`, whose `allowed_vendor_libs`
contains `ui-router`) does NOT return
`['app.module.js', 'ui-router', 'checkout.service.js']`: the framework
built-in `'$http'` is kept, because the bare-module-name branch has no
check for the `$` sigil. -/
theorem c2_filter_scenario_counterexample :
    filterDependenciesAA
        ["jquery.min.js", "app.module.js", "ui-router", "$http", "checkout.service.js"]
      ≠ ["app.module.js", "ui-router", "checkout.service.js"] := by
  decide

/-- Claim C2 (amended): on that input the filter returns
`['app.module.js', 'ui-router', '$http', 'checkout.service.js']` — vendor and
minified tokens dropped, the allow-listed `ui-router` kept, but `'$http'`
kept as well.  The claimed list is produced only once the callers' own
framework-built-in prefilter (dropping tokens that start with `$`, as in
`_process_states` and the resolve extraction) is applied before the filter. -/
theorem c2_filter_scenario_amended :
    filterDependenciesAA
        ["jquery.min.js", "app.module.js", "ui-router", "$http", "checkout.service.js"]
      = ["app.module.js", "ui-router", "$http", "checkout.service.js"]
    ∧ filterDependenciesAA
        (["jquery.min.js", "app.module.js", "ui-router", "$http", "checkout.service.js"].filter
          (fun d => !(pyStartsWith d "$")))
      = ["app.module.js", "ui-router", "checkout.service.js"] := by
  exact ⟨by decide, by decide⟩

/-- Claim C9: for every input token list, the dependency filter's output is a
subsequence of its input (no token is invented, rewritten, or reordered —
tokens are only removed).  This holds for both the monolithic engine's
`_filter_dependencies` and the modular engine's `filter_dependencies`. -/
theorem c9_filter_is_subsequence (deps : List String) :
    List.Sublist (filterDependenciesAA deps) deps
    ∧ List.Sublist (filterDependenciesU deps) deps :=
  ⟨List.filter_sublist deps, List.filter_sublist deps⟩

/-- Claim C1 counterexample: a state named `app` declared in the main route
file and again in an additional route-configuration file of the same run is
accepted twice — `added_state_names` is local to each `_process_states`
call, so the final output contains two routes with the same `name`. -/
theorem c1_name_unique_counterexample :
    ¬ (((engineRoutes
          [[("app", "\x7burl: '/a', templateUrl: 'views/a.html'\x7d")],
           [("app", "\x7burl: '/a', templateUrl: 'views/a.html'\x7d")]]).map
            RouteAA.name).Nodup) := by
  decide

/-- Claim C1 (amended): route names are unique among the routes produced by
a single `_process_states` call (one route-configuration file): the
`added_state_names` set drops later duplicates, first occurrence wins.
Across the several files analyzed in one run the output set may repeat a
name. -/
theorem c1_names_unique_per_file (sts : List (String × String)) :
    ((processStates sts).map RouteAA.name).Nodup :=
  processStatesAux_names_nodup _ _ _ _

/-- Claim C3 counterexample: for a route block whose `controller: 'FooCtrl'`
occurs only inside a nested `views` sub-object (no top-level `controller:`
key), the extraction attaches `FooCtrl` and the Verification Pass keeps it:
the lazily matched config prefix (up to the first close brace) contains the
literal `controller:`, so the field is NOT nulled. -/
theorem c3_nested_controller_counterexample :
    extractControllerRA
        "\x7b\n  views: \x7b\n    'main': \x7b\n      controller: 'FooCtrl'\n    \x7d\n  \x7d\n\x7d"
      = some "FooCtrl" ∧
    (verifyFixRA
        ".state('foo', \x7b\n  views: \x7b\n    'main': \x7b\n      controller: 'FooCtrl'\n    \x7d\n  \x7d\n\x7d)"
        { name := "foo",
          controller := extractControllerRA
            "\x7b\n  views: \x7b\n    'main': \x7b\n      controller: 'FooCtrl'\n    \x7d\n  \x7d\n\x7d" }).controller
      = some "FooCtrl" := by
  exact ⟨by decide, by decide⟩

/-- Claim C3 (amended): the Verification Pass nulls a decoded `controller`
only when the literal `controller:` / `controller :` is absent from the
lazily matched config prefix; whenever the re-scan reports the literal
present — including an occurrence nested inside a `views` sub-object, as in
the scenario — the top-level `controller` field is left unchanged. -/
theorem c3_verify_keeps_backed_controller (content : String) (r : RouteRA)
    (h : (verifyStateDefinitionRA r.name content).controller = true) :
    (verifyFixRA content r).controller = r.controller := by
  show (if (!(verifyStateDefinitionRA r.name content).controller && optTruthy r.controller) = true
        then none else r.controller) = r.controller
  rw [h]
  simp

/-- Claim C3 witness: the amended theorem applied to the scenario input. -/
theorem c3_verify_keeps_backed_controller_witness :
    (verifyStateDefinitionRA "foo"
        ".state('foo', \x7b\n  views: \x7b\n    'main': \x7b\n      controller: 'FooCtrl'\n    \x7d\n  \x7d\n\x7d)").controller = true ∧
    (verifyFixRA
        ".state('foo', \x7b\n  views: \x7b\n    'main': \x7b\n      controller: 'FooCtrl'\n    \x7d\n  \x7d\n\x7d)"
        { name := "foo", controller := some "FooCtrl" : RouteRA }).controller
      = some "FooCtrl" :=
  ⟨by decide,
   c3_verify_keeps_backed_controller
     ".state('foo', \x7b\n  views: \x7b\n    'main': \x7b\n      controller: 'FooCtrl'\n    \x7d\n  \x7d\n\x7d)"
     { name := "foo", controller := some "FooCtrl" } (by decide)⟩

/-- Claim C4 counterexample: a route deduplicated through
`list(set(all_deps))` (the ngRoute path and the modular analyzer, lines
404–407) need not preserve first-encounter order: with route-specific
dependencies `['b.js', 'a.js']`, a legitimate set enumeration returns
`['a.js', 'b.js']`, not the first-occurrence dedup. -/
theorem c4_dedup_order_counterexample :
    routeResolveRA revEnum ["b.js", "a.js"] [] ≠ seenDedup ["b.js", "a.js"] := by
  decide

/-- Claim C4 (amended): every accepted route's `resolveDependencies` and
`plugins` lists contain no duplicates.  For hierarchical-state routes
produced by `_process_states` the lists are first-occurrence
deduplications (the `seen`-set idiom): order-preserving sublists of the
extracted raw sequence that keep every entry, with first occurrence
winning.  For routes deduplicated through `list(set(...))` only the
no-duplicates guarantee holds; the entry order depends on the set
enumeration. -/
theorem c4_dedup_amended (sts : List (String × String)) (r : RouteAA)
    (h : r ∈ processStates sts) (e : SetEnum) (spec glob : List String)
    (xs : List String) (a x : String) :
    r.resolveDeps.Nodup ∧ r.plugins.Nodup ∧
    List.Sublist (seenDedup xs) xs ∧ (a ∈ seenDedup xs ↔ a ∈ xs) ∧
    seenDedup (x :: xs) = x :: seenDedup (xs.filter (fun y => y != x)) ∧
    (routeResolveRA e spec glob).Nodup := by
  have h' : r ∈ processStatesAux (parentMapAA sts)
      ((parentMapAA sts).map (fun p => p.2)) [] sts := h
  obtain ⟨-, n, c, rfl⟩ := processStatesAux_mem h'
  exact ⟨(decodeStateAA_deps_nodup _ _ _).1, (decodeStateAA_deps_nodup _ _ _).2,
    seenDedupGo_sublist [] xs, seenDedup_mem_iff a xs, seenDedup_cons x xs,
    routeResolveRA_nodup e spec glob⟩

/-- Claim C4 witness: the amended theorem applied to a concrete accepted
route and concrete dedup inputs. -/
theorem c4_dedup_amended_witness :
    ((processStates [("home", "\x7burl: '/h', templateUrl: 'views/home.html'\x7d")]).headD default
        ∈ processStates [("home", "\x7burl: '/h', templateUrl: 'views/home.html'\x7d")]) ∧
    (((processStates [("home", "\x7burl: '/h', templateUrl: 'views/home.html'\x7d")]).headD
          default).resolveDeps.Nodup ∧
      ((processStates [("home", "\x7burl: '/h', templateUrl: 'views/home.html'\x7d")]).headD
          default).plugins.Nodup ∧
      List.Sublist (seenDedup ["b", "a", "b"]) ["b", "a", "b"] ∧
      ("a" ∈ seenDedup ["b", "a", "b"] ↔ "a" ∈ (["b", "a", "b"] : List String)) ∧
      seenDedup ("z" :: ["b", "a", "b"]) =
        "z" :: seenDedup (["b", "a", "b"].filter (fun y => y != "z")) ∧
      (routeResolveRA idEnum ["g.js"] []).Nodup) :=
  ⟨by decide,
   c4_dedup_amended [("home", "\x7burl: '/h', templateUrl: 'views/home.html'\x7d")]
     ((processStates [("home", "\x7burl: '/h', templateUrl: 'views/home.html'\x7d")]).headD default)
     (by decide) idEnum ["g.js"] [] ["b", "a", "b"] "a" "z"⟩

/-- Claim C5 counterexample: a `/*` with no matching `*/` in the remainder
of the file produces NO comment span at all — the scanner only records a
span when a closing `*/` line is reached.  The state declared on the line
after the unterminated `/*` is not classified as commented, and its
`(name, config)` candidate is accepted by `_process_states`. -/
theorem c5_unterminated_comment_counterexample :
    multiLineComments ["/* begin", ".state('x', \x7burl: '/x'\x7d)"] = [] ∧
    inAnySpan (multiLineComments ["/* begin", ".state('x', \x7burl: '/x'\x7d)"]) 1 = false ∧
    (processStates [("x", "\x7burl: '/x'\x7d")]).map RouteAA.name = ["x"] := by
  exact ⟨by decide, by decide, by decide⟩

/-- Claim C5 (amended): the comment classifier records a block-comment span
only when it sees a closing `*/` line, so an unterminated `/*` covers
nothing: if no line from index `k` on contains `*/`, then no line from
index `k` on is classified as inside a block comment, and declarations
there are not rejected as commented-out. -/
theorem c5_unterminated_comment_amended (lines : List String) (k j : Nat)
    (h : ∀ e, e < lines.length → k ≤ e → strContains (lines.getD e "") "*/" = false)
    (hk : k ≤ j) :
    inAnySpan (multiLineComments lines) j = false := by
  by_contra hc
  rw [Bool.not_eq_false] at hc
  simp only [inAnySpan, List.any_eq_true, Bool.and_eq_true, decide_eq_true_eq] at hc
  obtain ⟨⟨s, e⟩, hmem, hs, he⟩ := hc
  obtain ⟨-, hlen, hcontains⟩ := mlcAux_end_closes lines 0 false 0 hmem
  simp only [Nat.sub_zero] at hlen hcontains
  have := h e hlen (Nat.le_trans hk he)
  rw [this] at hcontains
  exact Bool.false_ne_true hcontains

/-- Claim C5 witness: the amended theorem applied to a concrete file with an
unterminated block comment. -/
theorem c5_unterminated_comment_witness :
    (∀ e, e < (["/* begin", ".state('x', \x7burl: '/x'\x7d)"] : List String).length → 1 ≤ e →
        strContains ((["/* begin", ".state('x', \x7burl: '/x'\x7d)"] : List String).getD e "") "*/"
          = false) ∧
    inAnySpan (multiLineComments ["/* begin", ".state('x', \x7burl: '/x'\x7d)"]) 1 = false :=
  ⟨by decide,
   c5_unterminated_comment_amended ["/* begin", ".state('x', \x7burl: '/x'\x7d)"] 1 1
     (by decide) (by decide)⟩

/-- Claim C6 counterexample: `_process_states` decodes
`controller: 'MainCtrl as vm'` with the plain quoted pattern (tried first),
storing the whole string `MainCtrl as vm` instead of only `MainCtrl`. -/
theorem c6_controller_as_counterexample :
    extractControllerAA "\x7b\ncontroller: 'MainCtrl as vm',\nurl: '/m'\n\x7d"
      = some "MainCtrl as vm" ∧
    extractControllerAA "\x7b\ncontroller: 'MainCtrl as vm',\nurl: '/m'\n\x7d"
      ≠ some "MainCtrl" := by
  exact ⟨by decide, by decide⟩

/-- Claim C6 (amended): only the modular engine's controller decoder
(`route_analyzer.py` lines 255–276) recognizes the quoted
`'Name as alias'` convention and keeps only `Name`; the monolithic
engine's `_process_states` decoder stores the full quoted string because
its plain string pattern is tried before the controllerAs pattern. -/
theorem c6_controller_as_amended :
    extractControllerRA "\x7b\ncontroller: 'MainCtrl as vm',\nurl: '/m'\n\x7d"
      = some "MainCtrl" ∧
    extractControllerAA "\x7b\ncontroller: 'MainCtrl as vm',\nurl: '/m'\n\x7d"
      = some "MainCtrl as vm" := by
  exact ⟨by decide, by decide⟩

/-- Claim C7 counterexample: two runs of the engine over the same unchanged
input may produce differently ordered dependency lists: the
`list(set(...))` dedup enumerates in hash order, and two legitimate
enumerations (two processes with different hash seeds) give different
outputs on the same route. -/
theorem c7_idempotence_counterexample :
    routeResolveRA revEnum ["a.js", "b.js"] [] ≠ routeResolveRA idEnum ["a.js", "b.js"] [] := by
  decide

/-- Claim C7 (amended): across two runs the deduplicated dependency lists
agree up to permutation (same elements, no duplicates), and byte-identical
output is guaranteed only when the two processes enumerate their sets
identically (e.g. the same hash seed). -/
theorem c7_idempotence_amended (f g : List String → List String)
    (hf : ∀ xs, List.Perm (f xs) (seenDedup xs))
    (hg : ∀ xs, List.Perm (g xs) (seenDedup xs))
    (spec glob : List String) :
    List.Perm (routeResolveRA ⟨f, hf⟩ spec glob) (routeResolveRA ⟨g, hg⟩ spec glob) :=
  (hf _).trans (hg _).symm

/-- Claim C7 witness: the amended theorem at two concrete enumerations. -/
theorem c7_idempotence_witness :
    List.Perm
      (routeResolveRA ⟨seenDedup, fun _ => List.Perm.refl _⟩ ["a.js", "b.js"] [])
      (routeResolveRA
        ⟨fun xs => (seenDedup xs).reverse, fun xs => (seenDedup xs).reverse_perm⟩
        ["a.js", "b.js"] []) :=
  c7_idempotence_amended seenDedup (fun xs => (seenDedup xs).reverse)
    (fun _ => List.Perm.refl _) (fun xs => (seenDedup xs).reverse_perm)
    ["a.js", "b.js"] []

/-- Claim C8: a file containing only `.state("x",` (a declaration block
that never closes) contributes zero routes and does not raise: both
line-by-line extractors drop the unclosed candidate when the input ends,
`_process_states` of the empty candidate list yields no routes, and the
name `x` is reported in the "not processed" diagnostic. -/
theorem c8_unclosed_block_zero_routes :
    lineByLineRA [".state(\x22x\x22,"] = [] ∧
    aaFallbackExtract [".state(\x22x\x22,"] ["x"] [] [] = [] ∧
    processStates [] = [] ∧
    stateMatchesAA ".state(\x22x\x22," = ["x"] ∧
    unprocessedNamesAA ".state(\x22x\x22," [] = ["x"] := by
  exact ⟨by decide, by decide, rfl, by decide, by decide⟩

/-- Claim C10: the Verification Pass only ever changes the `controller` and
`template` fields, each only from a set value to null; `name`, `url`,
`templateUrl`, `parent`, `abstract`, `views`, `resolveDependencies`,
`plugins`, the dialect tag and the redirect flag are untouched. -/
theorem c10_verify_frame (content : String) (r : RouteAA) :
    (verifyFixAA content r).name = r.name ∧
    (verifyFixAA content r).url = r.url ∧
    (verifyFixAA content r).templateUrl = r.templateUrl ∧
    (verifyFixAA content r).parent = r.parent ∧
    (verifyFixAA content r).abstract = r.abstract ∧
    (verifyFixAA content r).views = r.views ∧
    (verifyFixAA content r).resolveDeps = r.resolveDeps ∧
    (verifyFixAA content r).plugins = r.plugins ∧
    (verifyFixAA content r).rtype = r.rtype ∧
    (verifyFixAA content r).redirectTo = r.redirectTo ∧
    ((verifyFixAA content r).controller = r.controller ∨
      (r.controller ≠ none ∧ (verifyFixAA content r).controller = none)) ∧
    ((verifyFixAA content r).template = r.template ∨
      (r.template ≠ none ∧ (verifyFixAA content r).template = none)) := by
  refine ⟨rfl, rfl, rfl, rfl, rfl, rfl, rfl, rfl, rfl, rfl, ?_, ?_⟩
  · have hc : (verifyFixAA content r).controller =
        (if (!(verifyStateDefinitionAA r.name content).controller
              && optTruthy r.controller) = true
         then none else r.controller) := rfl
    by_cases h : (!(verifyStateDefinitionAA r.name content).controller
        && optTruthy r.controller) = true
    · right
      refine ⟨?_, by rw [hc, if_pos h]⟩
      intro hnone
      rw [hnone] at h
      simp [optTruthy] at h
    · left
      rw [hc, if_neg h]
  · have ht : (verifyFixAA content r).template =
        (if (!(verifyStateDefinitionAA r.name content).template
              && optTruthy r.template) = true
         then none else r.template) := rfl
    by_cases h : (!(verifyStateDefinitionAA r.name content).template
        && optTruthy r.template) = true
    · right
      refine ⟨?_, by rw [ht, if_pos h]⟩
      intro hnone
      rw [hnone] at h
      simp [optTruthy] at h
    · left
      rw [ht, if_neg h]

end Spec2Proof
